import Mathlib

/-!
Verification of the chess-openings-tierlist repository.

Shallow embedding of the program's data model and operations:
* scoring and derived rates (`data_collection/collect_openings.py`),
* the discovery traversal `discover_openings_tree`,
* the persistence routine `OpeningDataProcessor.save_to_database`
  (`data_collection/data_processor.py`),
* the query endpoints `get_openings`, `get_tier_list`, `update_tier_list`,
  `get_top_performers` (`api/main.py`) over list-modelled database states.

Machine arithmetic over rates is modelled exactly with `ℚ`; timestamps are
modelled as `Nat`.
-/

/-! ### Derived rates and the scoring formula
    (collect_openings.py, lines 188-197) -/

/-- `total_games = white_wins + black_wins + draws` as computed by the
collector for a line of play. -/
def total_games (w b d : Nat) : Nat := w + b + d

/-- `win_rate_white = white_wins / total_games if total_games > 0 else 0`
(collect_openings.py line 192). -/
def win_rate_white (w b d : Nat) : ℚ :=
  if 0 < total_games w b d then (w : ℚ) / (total_games w b d : ℚ) else 0

/-- `win_rate_black = black_wins / total_games if total_games > 0 else 0`
(collect_openings.py line 193). -/
def win_rate_black (w b d : Nat) : ℚ :=
  if 0 < total_games w b d then (b : ℚ) / (total_games w b d : ℚ) else 0

/-- `draw_rate = draws / total_games if total_games > 0 else 0`
(collect_openings.py line 194). -/
def draw_rate (w b d : Nat) : ℚ :=
  if 0 < total_games w b d then (d : ℚ) / (total_games w b d : ℚ) else 0

/-- The primary composite score
`(win_rate_white * 0.4 + (1 - win_rate_black) * 0.4 + draw_rate * 0.2) * 100`
(collect_openings.py line 197). -/
def performance_score (wrw wrb dr : ℚ) : ℚ :=
  (wrw * 0.4 + (1 - wrb) * 0.4 + dr * 0.2) * 100

/-- The score of a line given its raw counts, composing the rate
computations with the primary formula exactly as the collector does. -/
def performance_score_of_counts (w b d : Nat) : ℚ :=
  performance_score (win_rate_white w b d) (win_rate_black w b d) (draw_rate w b d)

/-! ### Discovery engine (collect_openings.py, `discover_openings_tree`) -/

/-- Statistics returned by the provider for a two-move line
(`get_opening_continuations`): raw counts plus the opening info. -/
structure LineStats where
  white : Nat
  black : Nat
  draws : Nat
  eco : String
  name : String
deriving DecidableEq

/-- The external statistics provider, as seen by `discover_openings_tree`:
the list of first moves returned by `get_popular_openings` (empty on error),
the continuation sans for a one-move line (`none` models the empty dict
returned on a provider error), and the full statistics for a two-move line
(`none` models the error dict). -/
structure ProviderEnv where
  firstMoves : List String
  contMoves : String → Option (List String)
  lineStats : String → String → Option LineStats

/-- One discovered opening record as built at collect_openings.py
lines 199-212. -/
structure OpeningData where
  moves_sequence : List String
  eco_code : String
  opening_name : String
  white_wins : Nat
  black_wins : Nat
  draws : Nat
  total_games : Nat
  win_rate_white : ℚ
  win_rate_black : ℚ
  draw_rate : ℚ
  performance_score : ℚ
deriving DecidableEq

/-- Build the `opening_data` dictionary for a surviving line. -/
def mkOpeningData (m1 m2 : String) (st : LineStats) : OpeningData :=
  { moves_sequence := [m1, m2]
    eco_code := st.eco
    opening_name := st.name
    white_wins := st.white
    black_wins := st.black
    draws := st.draws
    total_games := total_games st.white st.black st.draws
    win_rate_white := win_rate_white st.white st.black st.draws
    win_rate_black := win_rate_black st.white st.black st.draws
    draw_rate := draw_rate st.white st.black st.draws
    performance_score := performance_score_of_counts st.white st.black st.draws }

/-- Inner loop of `discover_openings_tree` (lines 179-219): walk the top
continuations of one first move, skipping provider errors and lines with
fewer than 100 games, and break once `maxN` lines are gathered. -/
def exploreConts (env : ProviderEnv) (m1 : String) :
    List String → Nat → List OpeningData → List OpeningData
  | [], _, acc => acc
  | c :: rest, maxN, acc =>
    match env.lineStats m1 c with
    | none => exploreConts env m1 rest maxN acc
    | some st =>
      if total_games st.white st.black st.draws < 100 then
        exploreConts env m1 rest maxN acc
      else
        let acc2 := acc ++ [mkOpeningData m1 c st]
        if maxN ≤ acc2.length then acc2 else exploreConts env m1 rest maxN acc2

/-- Outer loop of `discover_openings_tree` (lines 171-222): walk the top 8
first moves, skipping branches whose continuation fetch errored, and break
once `maxN` lines are gathered. -/
def exploreFirst (env : ProviderEnv) :
    List String → Nat → List OpeningData → List OpeningData
  | [], _, acc => acc
  | m :: rest, maxN, acc =>
    match env.contMoves m with
    | none => exploreFirst env rest maxN acc
    | some conts =>
      let acc2 := exploreConts env m (conts.take 5) maxN acc
      if maxN ≤ acc2.length then acc2 else exploreFirst env rest maxN acc2

/-- The final descending sort at line 225:
Python's stable `sort(key=lambda x: (performance_score, total_games),
reverse=True)`, i.e. `a` precedes `b` when `b`'s key is lexicographically
at most `a`'s. -/
def discOrder (a b : OpeningData) : Prop :=
  b.performance_score < a.performance_score ∨
    (b.performance_score = a.performance_score ∧ b.total_games ≤ a.total_games)

instance : DecidableRel discOrder := fun a b => by
  unfold discOrder; infer_instance

/-- `discover_openings_tree(max_openings)` (lines 154-228): explore, sort
descending by (score, games), truncate to `max_openings`. -/
def discover_openings_tree (env : ProviderEnv) (maxN : Nat) : List OpeningData :=
  ((exploreFirst env (env.firstMoves.take 8) maxN []).insertionSort discOrder).take maxN

/-! ### Persistence layer (data_processor.py, `save_to_database`) -/

/-- The payload of an `Opening` row as supplied to `save_to_database`
(identity is generated at flush time). -/
structure OpeningRec where
  eco_code : String
  name : String
deriving DecidableEq

/-- The payload of an `OpeningStatistic` row as supplied to
`save_to_database` (its `opening_id` is assigned by the link loop). -/
structure StatRec where
  total_games : Nat
  performance_score : ℚ
deriving DecidableEq

/-- An `Opening` row as stored, with its generated primary key. -/
structure StoredOpening where
  id : Nat
  payload : OpeningRec
deriving DecidableEq

/-- An `OpeningStatistic` row as stored, linked to an opening id. -/
structure StoredStat where
  opening_id : Nat
  payload : StatRec
deriving DecidableEq

/-- The fields of the `DataUpdateLog` row the claims are about. -/
structure UpdateLogRec where
  status : String
  error_message : Option String
deriving DecidableEq

/-- The committed database state seen by `save_to_database`: the Opening and
OpeningStatistic tables, the update-log row for this run, and the next
primary key the engine will generate. -/
structure PersistState where
  openings : List StoredOpening
  stats : List StoredStat
  log : Option UpdateLogRec
  nextId : Nat
deriving DecidableEq

/-- The flush at data_processor.py line 109: each added opening receives a
generated primary key, in insertion order. -/
def assignIds (start : Nat) (l : List OpeningRec) : List StoredOpening :=
  l.enum.map (fun p => { id := start + p.1, payload := p.2 })

/-- `OpeningDataProcessor.save_to_database` (data_processor.py lines
87-140), step by step:
1. add the `in_progress` update log and commit (lines 97-98);
2. delete every `OpeningStatistic` and `Opening` row and commit (lines
   102-104) — this commit makes the wipe durable before any insert happens;
3. add the new openings and flush, generating their ids (lines 108-109);
4. link `statistics[i].opening_id = openings[i].id` (lines 112-113) — this
   raises `IndexError` when there are more statistics than openings;
5. on success, add the statistics, mark the log `success` and commit
   (lines 117-126);
6. on an exception, mark the log `error` with the exception text and commit
   (lines 132-135) — that commit also persists the still-pending flushed
   openings; the subsequent `rollback` has nothing left to undo.
Returns the (success flag, final committed state) pair. -/
def save_to_database (s : PersistState) (openings : List OpeningRec)
    (statistics : List StatRec) : Bool × PersistState :=
  let newOps := assignIds s.nextId openings
  if statistics.length ≤ openings.length then
    (true,
      { openings := newOps
        stats := (statistics.enum).map
          (fun p => { opening_id := s.nextId + p.1, payload := p.2 })
        log := some { status := "success", error_message := none }
        nextId := s.nextId + openings.length })
  else
    (false,
      { openings := newOps
        stats := []
        log := some { status := "error",
                      error_message := some "list index out of range" }
        nextId := s.nextId + openings.length })

/-- Claim C1 as stated: whenever `save_to_database` fails, the Opening and
OpeningStatistic tables are exactly as they were before the call, and the
update log is marked `error`. -/
def replaceAllRollsBack : Prop :=
  ∀ (s : PersistState) (ops : List OpeningRec) (sts : List StatRec),
    (save_to_database s ops sts).1 = false →
      (save_to_database s ops sts).2.openings = s.openings ∧
      (save_to_database s ops sts).2.stats = s.stats ∧
      ∃ l, (save_to_database s ops sts).2.log = some l ∧ l.status = "error"

/-- A concrete prior snapshot: one opening with one statistic row. -/
def priorState : PersistState :=
  { openings := [{ id := 1, payload := { eco_code := "B00", name := "Old" } }]
    stats := [{ opening_id := 1, payload := { total_games := 500, performance_score := 50 } }]
    log := none
    nextId := 2 }

/-! ### Tier-list overlay (api/main.py, `update_tier_list`)

The session created by `get_session` (database/models.py line 190) has
`autoflush=False`, so queries issued inside `update_tier_list` see only
committed rows: entries added earlier in the same call are invisible to the
existence check, and in-session field changes never touch the key columns,
so matching against the working copy is faithful. -/

/-- A `TierListEntry` row (database/models.py lines 147-176); the schema has
no unique constraint on the key columns. -/
structure TierListEntry where
  opening_id : Nat
  tier_rank : String
  tier_position : Int
  rating_range : String
  time_control : String
  user_id : String
deriving DecidableEq

/-- One element of the request body of `POST /tier-list`. -/
structure TLUpdate where
  opening_id : Nat
  tier_rank : String
  tier_position : Int
deriving DecidableEq

/-- The existence-check filter at api/main.py lines 227-232. -/
def keyMatches (e : TierListEntry) (oid : Nat) (rr tc uid : String) : Bool :=
  e.opening_id = oid && e.rating_range = rr && e.time_control = tc && e.user_id = uid

/-- The fresh row built at api/main.py lines 239-246. -/
def mkEntry (u : TLUpdate) (rr tc uid : String) : TierListEntry :=
  { opening_id := u.opening_id
    tier_rank := u.tier_rank
    tier_position := u.tier_position
    rating_range := rr
    time_control := tc
    user_id := uid }

/-- Update the first row matching the key in place (api/main.py lines
234-237), changing only `tier_rank` and `tier_position`; `none` when no row
matches. -/
def updateFirstMatch (u : TLUpdate) (rr tc uid : String) :
    List TierListEntry → Option (List TierListEntry)
  | [] => none
  | e :: rest =>
    if keyMatches e u.opening_id rr tc uid then
      some ({ e with tier_rank := u.tier_rank, tier_position := u.tier_position } :: rest)
    else
      (updateFirstMatch u rr tc uid rest).map (fun l => e :: l)

/-- The loop of `update_tier_list` (api/main.py lines 225-247): `working` is
the session's view of the committed rows, `pending` the rows added but not
yet flushed (invisible to the existence check because autoflush is off). -/
def runUpdates (rr tc uid : String) :
    List TLUpdate → List TierListEntry → List TierListEntry →
    List TierListEntry × List TierListEntry
  | [], working, pending => (working, pending)
  | u :: rest, working, pending =>
    match updateFirstMatch u rr tc uid working with
    | some w2 => runUpdates rr tc uid rest w2 pending
    | none => runUpdates rr tc uid rest working (pending ++ [mkEntry u rr tc uid])

/-- `update_tier_list` (api/main.py lines 214-254). `failAt = some k` injects
an exception after `k` updates have been processed (`k = updates.length`
models a failure of the final commit); the handler at lines 252-254 rolls
the session back, leaving the committed table unchanged, and surfaces an
HTTP 500. Returns (error message if any, committed table after the call). -/
def update_tier_list (committed : List TierListEntry) (updates : List TLUpdate)
    (rr tc uid : String) (failAt : Option Nat) :
    Option String × List TierListEntry :=
  match failAt with
  | some k =>
    if k ≤ updates.length then
      (some "Failed to update tier list", committed)
    else
      let wp := runUpdates rr tc uid updates committed []
      (none, wp.1 ++ wp.2)
  | none =>
    let wp := runUpdates rr tc uid updates committed []
    (none, wp.1 ++ wp.2)

/-- Number of `TierListEntry` rows matching a key. -/
def countKey (l : List TierListEntry) (oid : Nat) (rr tc uid : String) : Nat :=
  (l.filter (fun e => keyMatches e oid rr tc uid)).length

/-- Claim C10 as stated: every successful `update_tier_list` call preserves
the at-most-one-row-per-key invariant. -/
def tierUpsertPreservesInvariant : Prop :=
  ∀ (committed : List TierListEntry) (updates : List TLUpdate) (rr tc uid : String),
    (∀ oid r t u2, countKey committed oid r t u2 ≤ 1) →
    (∀ oid r t u2,
      countKey (update_tier_list committed updates rr tc uid none).2 oid r t u2 ≤ 1)

/-! ### Query layer data model (api/main.py read endpoints) -/

/-- An `Opening` row as the query endpoints use it. -/
structure QOpening where
  id : Nat
  eco_code : String
  name : String
  popularity_rank : Nat
  is_active : Bool
deriving DecidableEq

/-- An `OpeningStatistic` row with every column of the ORM model
(database/models.py lines 54-96); timestamps are modelled as `Nat`. -/
structure QStat where
  id : Nat
  opening_id : Nat
  white_wins : Nat
  black_wins : Nat
  draws : Nat
  total_games : Nat
  win_rate_white : ℚ
  win_rate_black : ℚ
  draw_rate : ℚ
  performance_score : ℚ
  rating_range : String
  time_control : String
  date_range_start : Nat
  date_range_end : Nat
  average_rating : Int
  average_game_length : Int
  frequency_rank : Int
  collected_at : Nat
  data_source : String
deriving DecidableEq

/-- The database state read by the query endpoints. -/
structure QueryDB where
  openings : List QOpening
  stats : List QStat
  tiers : List TierListEntry
deriving DecidableEq

/-! ### `GET /tier-list` (api/main.py, `get_tier_list`, lines 155-211) -/

/-- The context filters at lines 170-173: applied only when the parameter is
non-empty (truthy) and differs from `"all"`. -/
def matchesFilters (rr tc : String) (s : QStat) : Bool :=
  (if rr ≠ "" && rr ≠ "all" then s.rating_range = rr else true) &&
  (if tc ≠ "" && tc ≠ "all" then s.time_control = tc else true)

/-- The grouped subquery at lines 176-179: the maximum `collected_at` over
ALL statistic rows of an opening, with no context filter. -/
def maxCollected (db : QueryDB) (oid : Nat) : Nat :=
  ((db.stats.filter (fun s => s.opening_id = oid)).map (fun s => s.collected_at)).foldr max 0

/-- The per-row tier lookup at lines 196-201: the first `TierListEntry`
matching the (opening, rating_range, time_control, user_id) key, with the
raw query parameters (including `"all"`) as key values. -/
def tierLookup (db : QueryDB) (rr tc uid : String) (oid : Nat) : Option TierListEntry :=
  db.tiers.find? (fun e => keyMatches e oid rr tc uid)

/-- The (opening, statistic) pairs surviving the join at lines 165-185:
active openings joined to their statistics, context filters applied, and the
inner join against the grouped subquery keeping only rows whose
`collected_at` equals the opening's global maximum. -/
def tierListPairs (db : QueryDB) (rr tc : String) : List (QOpening × QStat) :=
  db.openings.flatMap (fun o =>
    if o.is_active then
      (db.stats.filter (fun s =>
        s.opening_id = o.id && matchesFilters rr tc s &&
        s.collected_at = maxCollected db s.opening_id)).map (fun s => (o, s))
    else [])

/-- The `ORDER BY performance_score DESC` at line 188 (ties in arbitrary,
here stable, order). -/
def scoreDescRel (a b : QOpening × QStat) : Prop :=
  b.2.performance_score ≤ a.2.performance_score

instance : DecidableRel scoreDescRel := fun a b => by
  unfold scoreDescRel; infer_instance

instance : IsTotal (QOpening × QStat) scoreDescRel :=
  ⟨fun a b => le_total b.2.performance_score a.2.performance_score⟩

instance : IsTrans (QOpening × QStat) scoreDescRel :=
  ⟨fun _ _ _ h1 h2 => le_trans h2 h1⟩

/-- One element of the `GET /tier-list` response (lines 203-208). -/
structure TierRow where
  opening : QOpening
  stat : QStat
  tier_rank : Option String
  tier_position : Option Int
deriving DecidableEq

/-- `get_tier_list` (lines 155-211): join, filter, keep global-latest rows,
sort by performance score descending, cap at 50, attach tier data. -/
def get_tier_list (db : QueryDB) (rr tc uid : String) : List TierRow :=
  ((((tierListPairs db rr tc).insertionSort scoreDescRel).take 50).map (fun p =>
    { opening := p.1
      stat := p.2
      tier_rank := (tierLookup db rr tc uid p.1.id).map (fun e => e.tier_rank)
      tier_position := (tierLookup db rr tc uid p.1.id).map (fun e => e.tier_position) }))

/-- Claim C2 as stated (spec wording): every returned row carries, for its
opening, the statistic with the maximum `collected_at` AMONG THE ROWS
MATCHING THE CONTEXT FILTERS, and — up to the cap of 50 — every active
opening possessing a filter-matching statistic appears in the result. -/
def tierListLatestPerFilterClaim : Prop :=
  ∀ (db : QueryDB) (rr tc uid : String),
    (∀ r ∈ get_tier_list db rr tc uid,
      matchesFilters rr tc r.stat = true ∧
      ∀ s ∈ db.stats, s.opening_id = r.opening.id → matchesFilters rr tc s = true →
        s.collected_at ≤ r.stat.collected_at) ∧
    ((get_tier_list db rr tc uid).length < 50 →
      ∀ o ∈ db.openings, o.is_active = true →
        (∃ s ∈ db.stats, s.opening_id = o.id ∧ matchesFilters rr tc s = true) →
        ∃ r ∈ get_tier_list db rr tc uid, r.opening.id = o.id)

/-! ### Dynamic sort/metric field resolution
    (`GET /openings` lines 90-122, `GET /statistics/top-performers`
    lines 282-309) -/

/-- The columns of the `OpeningStatistic` ORM model. -/
inductive StatColumn
  | id | opening_id | white_wins | black_wins | draws | total_games
  | win_rate_white | win_rate_black | draw_rate | performance_score
  | rating_range | time_control | date_range_start | date_range_end
  | average_rating | average_game_length | frequency_rank
  | collected_at | data_source
deriving DecidableEq

/-- A column value, tagged with its SQL type. -/
inductive ColVal
  | natv (n : Nat)
  | intv (i : Int)
  | ratv (q : ℚ)
  | strv (s : String)
deriving DecidableEq

/-- Value of a column on a statistic row. -/
def colValue (c : StatColumn) (s : QStat) : ColVal :=
  match c with
  | .id => .natv s.id
  | .opening_id => .natv s.opening_id
  | .white_wins => .natv s.white_wins
  | .black_wins => .natv s.black_wins
  | .draws => .natv s.draws
  | .total_games => .natv s.total_games
  | .win_rate_white => .ratv s.win_rate_white
  | .win_rate_black => .ratv s.win_rate_black
  | .draw_rate => .ratv s.draw_rate
  | .performance_score => .ratv s.performance_score
  | .rating_range => .strv s.rating_range
  | .time_control => .strv s.time_control
  | .date_range_start => .natv s.date_range_start
  | .date_range_end => .natv s.date_range_end
  | .average_rating => .intv s.average_rating
  | .average_game_length => .intv s.average_game_length
  | .frequency_rank => .intv s.frequency_rank
  | .collected_at => .natv s.collected_at
  | .data_source => .strv s.data_source

/-- Comparison of column values: within one SQL type, the type's order;
the cross-type cases never arise for a single sort column. -/
def colLeB : ColVal → ColVal → Bool
  | .natv a, .natv b => a ≤ b
  | .intv a, .intv b => a ≤ b
  | .ratv a, .ratv b => a ≤ b
  | .strv a, .strv b => a ≤ b
  | .natv _, _ => true
  | .intv _, .natv _ => false
  | .intv _, _ => true
  | .ratv _, .natv _ => false
  | .ratv _, .intv _ => false
  | .ratv _, _ => true
  | .strv _, _ => false

/-- The attributes declared in the body of the `OpeningStatistic` class
(database/models.py lines 54-113): its columns, the `opening` relationship,
and the two derived-rate properties. -/
inductive StatClassAttr
  | col (c : StatColumn)
  | relOpening
  | propWinRateForWhite
  | propWinRateForBlack
deriving DecidableEq

/-- `getattr(OpeningStatistic, name)` over the declared attributes; `none`
models `AttributeError` (no such attribute). -/
def statClassAttr (name : String) : Option StatClassAttr :=
  match name with
  | "id" => some (.col .id)
  | "opening_id" => some (.col .opening_id)
  | "white_wins" => some (.col .white_wins)
  | "black_wins" => some (.col .black_wins)
  | "draws" => some (.col .draws)
  | "total_games" => some (.col .total_games)
  | "win_rate_white" => some (.col .win_rate_white)
  | "win_rate_black" => some (.col .win_rate_black)
  | "draw_rate" => some (.col .draw_rate)
  | "performance_score" => some (.col .performance_score)
  | "rating_range" => some (.col .rating_range)
  | "time_control" => some (.col .time_control)
  | "date_range_start" => some (.col .date_range_start)
  | "date_range_end" => some (.col .date_range_end)
  | "average_rating" => some (.col .average_rating)
  | "average_game_length" => some (.col .average_game_length)
  | "frequency_rank" => some (.col .frequency_rank)
  | "collected_at" => some (.col .collected_at)
  | "data_source" => some (.col .data_source)
  | "opening" => some .relOpening
  | "win_rate_for_white" => some .propWinRateForWhite
  | "win_rate_for_black" => some .propWinRateForBlack
  | _ => none

/-- `getattr(OpeningStatistic, name, OpeningStatistic.performance_score)`
followed by `order_by`: an unknown name silently falls back to the
`performance_score` column (api/main.py lines 113 and 290); a declared
non-column attribute is rejected by the query layer. -/
def resolveOrderField (name : String) : Except String StatColumn :=
  match statClassAttr name with
  | some (.col c) => .ok c
  | some _ => .error "order_by expects a column expression"
  | none => .ok .performance_score

/-- Descending order on the resolved column (`desc(sort_field)`). -/
def statDescRel (c : StatColumn) (a b : QOpening × QStat) : Prop :=
  colLeB (colValue c b.2) (colValue c a.2) = true

instance (c : StatColumn) : DecidableRel (statDescRel c) := fun a b => by
  unfold statDescRel; infer_instance

/-- Ascending order on the resolved column. -/
def statAscRel (c : StatColumn) (a b : QOpening × QStat) : Prop :=
  colLeB (colValue c a.2) (colValue c b.2) = true

instance (c : StatColumn) : DecidableRel (statAscRel c) := fun a b => by
  unfold statAscRel; infer_instance

/-- The join of `db.query(Opening).join(OpeningStatistic)`: one pair per
(opening, owned statistic); `get_openings` applies no `is_active` filter. -/
def joinPairs (db : QueryDB) : List (QOpening × QStat) :=
  db.openings.flatMap (fun o =>
    (db.stats.filter (fun s => s.opening_id = o.id)).map (fun s => (o, s)))

/-- `get_openings` (api/main.py lines 90-122): join, truthy optional
filters, sort by the dynamically resolved field, limit, and return the
`Opening` entities of the surviving rows. -/
def get_openings (db : QueryDB) (rating_range time_control : Option String)
    (min_games : Nat) (sort_by ord : String) (lim : Nat) :
    Except String (List QOpening) := do
  let c ← resolveOrderField sort_by
  let pairs := (joinPairs db).filter (fun p =>
    (match rating_range with
     | some r => if r ≠ "" then p.2.rating_range = r else true
     | none => true) &&
    (match time_control with
     | some t => if t ≠ "" then p.2.time_control = t else true
     | none => true) &&
    (if min_games ≠ 0 then min_games ≤ p.2.total_games else true))
  let sorted :=
    if ord.toLower = "desc" then pairs.insertionSort (statDescRel c)
    else pairs.insertionSort (statAscRel c)
  pure ((sorted.take lim).map (fun p => p.1))

/-- The rows selected by `get_top_performers` (api/main.py lines 292-299):
active openings with at least 100 games, sorted descending by the resolved
column, capped at `lim`. -/
def topPerformerRows (db : QueryDB) (lim : Nat) (c : StatColumn) :
    List (QOpening × QStat) :=
  (((db.openings.filter (fun o => o.is_active)).flatMap (fun o =>
      (db.stats.filter (fun s => s.opening_id = o.id && 100 ≤ s.total_games)).map
        (fun s => (o, s)))).insertionSort (statDescRel c)).take lim

/-- `getattr(statistic, metric)` on an `OpeningStatistic` instance
(api/main.py line 306, no default): columns yield their value, the two
properties their derived rate (database/models.py lines 101-113), the
relationship the owning opening (represented by its id); an unknown name
raises `AttributeError`. -/
def getattrStat (s : QStat) (name : String) : Except String ColVal :=
  match statClassAttr name with
  | some (.col c) => .ok (colValue c s)
  | some .relOpening => .ok (.natv s.opening_id)
  | some .propWinRateForWhite =>
    .ok (.ratv (if s.total_games = 0 then 0
                else ((s.white_wins : ℚ) + (s.draws : ℚ) * (1/2)) / (s.total_games : ℚ)))
  | some .propWinRateForBlack =>
    .ok (.ratv (if s.total_games = 0 then 0
                else ((s.black_wins : ℚ) + (s.draws : ℚ) * (1/2)) / (s.total_games : ℚ)))
  | none => .error "AttributeError"

/-- `get_top_performers` (api/main.py lines 282-309): resolve the metric for
sorting (with silent fallback), select the rows, then read
`getattr(statistic, metric)` for each returned row while formatting the
response. -/
def get_top_performers (db : QueryDB) (lim : Nat) (metric : String) :
    Except String (List (QOpening × QStat × ColVal)) := do
  let c ← resolveOrderField metric
  (topPerformerRows db lim c).mapM (fun p => do
    let v ← getattrStat p.2 metric
    pure (p.1, p.2, v))

/-- The numeric statistic columns ("recognized numeric statistic fields"). -/
def numericStatFieldNames : List String :=
  ["id", "opening_id", "white_wins", "black_wins", "draws", "total_games",
   "win_rate_white", "win_rate_black", "draw_rate", "performance_score",
   "average_rating", "average_game_length", "frequency_rank"]

/-- Claim C8 as stated: any string that is not a recognized numeric
statistic field makes both endpoints silently fall back to
`performance_score`, returning exactly the rows the explicit
`performance_score` request returns. -/
def unknownFieldFallsBackClaim : Prop :=
  ∀ (db : QueryDB) (name : String), name ∉ numericStatFieldNames →
    (∀ rr tc mg ord lim,
      get_openings db rr tc mg name ord lim =
        get_openings db rr tc mg "performance_score" ord lim) ∧
    (∀ lim, get_top_performers db lim name =
        get_top_performers db lim "performance_score")

/-! ### Concrete states used to instantiate the theorems -/

/-- A provider environment with a single explored line (1.e4 e5) whose
statistics match the spec's worked example (550/400/50 of 1000 games). -/
def discEnv : ProviderEnv :=
  { firstMoves := ["e4"]
    contMoves := fun m => if m = "e4" then some ["e5"] else none
    lineStats := fun a b =>
      if a = "e4" && b = "e5" then
        some { white := 550, black := 400, draws := 50,
               eco := "C20", name := "Kings Pawn Game" }
      else none }

/-- The single line statistics of `discEnv`. -/
def discStats : LineStats :=
  { white := 550, black := 400, draws := 50, eco := "C20", name := "Kings Pawn Game" }

/-- An active opening used by the concrete query databases. -/
def qoE4 : QOpening :=
  { id := 1, eco_code := "C20", name := "Kings Pawn Game",
    popularity_rank := 1, is_active := true }

/-- An older statistic row in the "1800" rating context. -/
def qsOld : QStat :=
  { id := 1, opening_id := 1, white_wins := 550, black_wins := 400, draws := 50,
    total_games := 1000, win_rate_white := 11/20, win_rate_black := 2/5,
    draw_rate := 1/20, performance_score := 47, rating_range := "1800",
    time_control := "blitz", date_range_start := 0, date_range_end := 0,
    average_rating := 1850, average_game_length := 40, frequency_rank := 1,
    collected_at := 1, data_source := "lichess" }

/-- A newer statistic row for the same opening in the "2000" rating
context: it holds the opening's maximum `collected_at`. -/
def qsNew : QStat :=
  { id := 2, opening_id := 1, white_wins := 300, black_wins := 250, draws := 50,
    total_games := 600, win_rate_white := 1/2, win_rate_black := 5/12,
    draw_rate := 1/12, performance_score := 45, rating_range := "2000",
    time_control := "blitz", date_range_start := 0, date_range_end := 0,
    average_rating := 2050, average_game_length := 42, frequency_rank := 1,
    collected_at := 2, data_source := "lichess" }

/-- A concrete database: one active opening whose latest statistic sits in a
different rating context than its older one. -/
def qdb1 : QueryDB := { openings := [qoE4], stats := [qsOld, qsNew], tiers := [] }

/-- A statistic payload used to instantiate the persistence theorems. -/
def st1 : StatRec := { total_games := 10, performance_score := 1 }

/-! ### Theorems -/

/-- C3: the primary scoring function is the pure formula
`(win_rate_white * 0.4 + (1 - win_rate_black) * 0.4 + draw_rate * 0.2) * 100`
over every rate triple, and on the worked example it evaluates the rates to
0.55 and 0.05 and the score to exactly 47. -/
theorem scoring_formula_and_example :
    (∀ wrw wrb dr : ℚ, performance_score wrw wrb dr =
      (wrw * 0.4 + (1 - wrb) * 0.4 + dr * 0.2) * 100) ∧
    win_rate_white 550 400 50 = 11/20 ∧
    draw_rate 550 400 50 = 1/20 ∧
    performance_score_of_counts 550 400 50 = 47 := by
  refine ⟨fun _ _ _ => rfl, ?_, ?_, ?_⟩ <;>
    norm_num [performance_score_of_counts, performance_score, win_rate_white,
      win_rate_black, draw_rate, total_games]

/-- C9: with zero total games every derived rate is 0 (the guard prevents
any division by zero), and with positive total games the three rates sum to
exactly 1. -/
theorem derived_rates_safe (w b d : Nat) :
    (total_games w b d = 0 →
      win_rate_white w b d = 0 ∧ win_rate_black w b d = 0 ∧ draw_rate w b d = 0) ∧
    (0 < total_games w b d →
      win_rate_white w b d + win_rate_black w b d + draw_rate w b d = 1) := by
  constructor
  · intro h
    simp [win_rate_white, win_rate_black, draw_rate, h]
  · intro h
    have ht : ((total_games w b d : ℚ)) ≠ 0 := by
      exact_mod_cast Nat.pos_iff_ne_zero.mp h
    unfold win_rate_white win_rate_black draw_rate
    rw [if_pos h, if_pos h, if_pos h, div_add_div_same, div_add_div_same]
    have hsum : ((w : ℚ) + (b : ℚ) + (d : ℚ)) = (total_games w b d : ℚ) := by
      push_cast [total_games]; ring
    rw [hsum, div_self ht]

/-- Witness for C9 at concrete rows: the all-zero row and the worked
example. -/
theorem derived_rates_safe_witness :
    (win_rate_white 0 0 0 = 0 ∧ win_rate_black 0 0 0 = 0 ∧ draw_rate 0 0 0 = 0) ∧
    win_rate_white 550 400 50 + win_rate_black 550 400 50 + draw_rate 550 400 50 = 1 :=
  ⟨(derived_rates_safe 0 0 0).1 rfl, (derived_rates_safe 550 400 50).2 (by decide)⟩

/-- C7: after `save_to_database` returns, the run's update log always holds
a terminal status — `"success"` or `"error"`, never `"in_progress"`. -/
theorem update_log_terminal (s : PersistState) (ops : List OpeningRec)
    (sts : List StatRec) :
    ∃ l, (save_to_database s ops sts).2.log = some l ∧
      (l.status = "success" ∨ l.status = "error") := by
  unfold save_to_database
  by_cases h : sts.length ≤ ops.length
  · rw [if_pos h]
    exact ⟨_, rfl, Or.inl rfl⟩
  · rw [if_neg h]
    exact ⟨_, rfl, Or.inr rfl⟩

/-- C1 as stated is false: a failing `save_to_database` run does not leave
the prior snapshot intact, because the delete of the old rows is committed
before the inserts run. -/
theorem replace_all_not_atomic : ¬ replaceAllRollsBack := by
  intro h
  have h2 := (h priorState [] [st1] (by decide)).2.1
  exact absurd h2 (by decide)

/-- C1 amended: when the batch errors (in the deterministic control flow
this happens exactly in the link loop, when there are more statistics than
openings), `save_to_database` returns failure and marks the update log
`error` with the exception text — but the store is NOT restored: the prior
rows were wiped by the already-committed delete, and the error-path commit
leaves the newly flushed openings with no statistics. -/
theorem replace_all_error_path (s : PersistState) (ops : List OpeningRec)
    (sts : List StatRec) (h : ops.length < sts.length) :
    (save_to_database s ops sts).1 = false ∧
    (save_to_database s ops sts).2.stats = [] ∧
    (save_to_database s ops sts).2.openings = assignIds s.nextId ops ∧
    (save_to_database s ops sts).2.log =
      some { status := "error", error_message := some "list index out of range" } := by
  have h2 : ¬ sts.length ≤ ops.length := not_le.mpr h
  unfold save_to_database
  rw [if_neg h2]
  exact ⟨rfl, rfl, rfl, rfl⟩

/-- Witness for the amended C1 on a concrete prior snapshot. -/
theorem replace_all_error_path_witness :
    ([] : List OpeningRec).length < [st1].length ∧
    ((save_to_database priorState [] [st1]).1 = false ∧
     (save_to_database priorState [] [st1]).2.stats = [] ∧
     (save_to_database priorState [] [st1]).2.openings = assignIds priorState.nextId [] ∧
     (save_to_database priorState [] [st1]).2.log =
       some { status := "error", error_message := some "list index out of range" }) :=
  ⟨by decide, replace_all_error_path priorState [] [st1] (by decide)⟩

/-- C6: `update_tier_list` is whole-batch atomic — an exception at any point
of the call (any processed prefix, or the final commit) rolls the whole
batch back, the committed tier table is exactly the pre-call one, and an
error is surfaced to the caller. -/
theorem tier_updates_atomic (committed : List TierListEntry)
    (updates : List TLUpdate) (rr tc uid : String) (k : Nat)
    (h : k ≤ updates.length) :
    (update_tier_list committed updates rr tc uid (some k)).1.isSome = true ∧
    (update_tier_list committed updates rr tc uid (some k)).2 = committed := by
  unfold update_tier_list
  dsimp only
  rw [if_pos h]
  exact ⟨rfl, rfl⟩

/-- Witness for C6: a one-update batch failing at the commit point. -/
theorem tier_updates_atomic_witness :
    (1 : Nat) ≤ [TLUpdate.mk 7 "A" 1].length ∧
    ((update_tier_list [] [TLUpdate.mk 7 "A" 1] "all" "all" "default" (some 1)).1.isSome = true ∧
     (update_tier_list [] [TLUpdate.mk 7 "A" 1] "all" "all" "default" (some 1)).2 = []) :=
  ⟨by decide, tier_updates_atomic [] [TLUpdate.mk 7 "A" 1] "all" "all" "default" 1 (by decide)⟩

/-- Every line the inner discovery loop adds to the accumulator has passed
the 100-game floor. -/
theorem exploreConts_games (env : ProviderEnv) (m1 : String) :
    ∀ (conts : List String) (maxN : Nat) (acc : List OpeningData),
      (∀ o ∈ acc, 100 ≤ o.total_games) →
      ∀ o ∈ exploreConts env m1 conts maxN acc, 100 ≤ o.total_games := by
  intro conts
  induction conts with
  | nil =>
    intro maxN acc hacc o ho
    exact hacc o ho
  | cons c rest ih =>
    intro maxN acc hacc o ho
    simp only [exploreConts] at ho
    cases hls : env.lineStats m1 c with
    | none =>
      rw [hls] at ho
      exact ih maxN acc hacc o ho
    | some st =>
      rw [hls] at ho
      simp only at ho
      by_cases hlt : total_games st.white st.black st.draws < 100
      · rw [if_pos hlt] at ho
        exact ih maxN acc hacc o ho
      · rw [if_neg hlt] at ho
        have hacc2 : ∀ o2 ∈ acc ++ [mkOpeningData m1 c st], 100 ≤ o2.total_games := by
          intro o2 ho2
          rcases List.mem_append.mp ho2 with h1 | h1
          · exact hacc o2 h1
          · have he : o2 = mkOpeningData m1 c st := List.mem_singleton.mp h1
            rw [he]
            exact le_of_not_lt hlt
        by_cases hbr : maxN ≤ (acc ++ [mkOpeningData m1 c st]).length
        · rw [if_pos hbr] at ho
          exact hacc2 o ho
        · rw [if_neg hbr] at ho
          exact ih maxN _ hacc2 o ho

/-- Every line the outer discovery loop gathers has passed the 100-game
floor. -/
theorem exploreFirst_games (env : ProviderEnv) :
    ∀ (fms : List String) (maxN : Nat) (acc : List OpeningData),
      (∀ o ∈ acc, 100 ≤ o.total_games) →
      ∀ o ∈ exploreFirst env fms maxN acc, 100 ≤ o.total_games := by
  intro fms
  induction fms with
  | nil =>
    intro maxN acc hacc o ho
    exact hacc o ho
  | cons m rest ih =>
    intro maxN acc hacc o ho
    simp only [exploreFirst] at ho
    cases hcm : env.contMoves m with
    | none =>
      rw [hcm] at ho
      exact ih maxN acc hacc o ho
    | some conts =>
      rw [hcm] at ho
      simp only at ho
      have hacc2 : ∀ o2 ∈ exploreConts env m (conts.take 5) maxN acc, 100 ≤ o2.total_games :=
        exploreConts_games env m (conts.take 5) maxN acc hacc
      by_cases hbr : maxN ≤ (exploreConts env m (conts.take 5) maxN acc).length
      · rw [if_pos hbr] at ho
        exact hacc2 o ho
      · rw [if_neg hbr] at ho
        exact ih maxN _ hacc2 o ho

/-- C4: the discovery engine never returns more than the requested number
of lines, and every returned line has at least the fixed floor of 100
games. -/
theorem discovery_respects_floor_and_count (env : ProviderEnv) (maxN : Nat) :
    (discover_openings_tree env maxN).length ≤ maxN ∧
    ∀ o ∈ discover_openings_tree env maxN, 100 ≤ o.total_games := by
  constructor
  · exact List.length_take_le maxN _
  · intro o ho
    have h1 : o ∈ (exploreFirst env (env.firstMoves.take 8) maxN []).insertionSort discOrder :=
      List.mem_of_mem_take ho
    have h2 : o ∈ exploreFirst env (env.firstMoves.take 8) maxN [] :=
      (List.mem_insertionSort discOrder).mp h1
    exact exploreFirst_games env (env.firstMoves.take 8) maxN []
      (by intro o2 ho2; exact absurd ho2 (List.not_mem_nil o2)) o h2

/-- Witness for C4 on a concrete provider: the single discovered line is in
the result and carries 1000 ≥ 100 games. -/
theorem discovery_respects_floor_and_count_witness :
    mkOpeningData "e4" "e5" discStats ∈ discover_openings_tree discEnv 50 ∧
    100 ≤ (mkOpeningData "e4" "e5" discStats).total_games := by
  have hm : mkOpeningData "e4" "e5" discStats ∈ discover_openings_tree discEnv 50 := by
    rw [show discover_openings_tree discEnv 50 = [mkOpeningData "e4" "e5" discStats] from rfl]
    exact List.mem_singleton.mpr rfl
  exact ⟨hm,
    (discovery_respects_floor_and_count discEnv 50).2 (mkOpeningData "e4" "e5" discStats) hm⟩

/-- Counting rows matching a key distributes over cons. -/
theorem countKey_cons (e : TierListEntry) (l : List TierListEntry) (oid : Nat)
    (r t u2 : String) :
    countKey (e :: l) oid r t u2 =
      (if keyMatches e oid r t u2 = true then 1 else 0) + countKey l oid r t u2 := by
  simp only [countKey, List.filter_cons]
  by_cases h : keyMatches e oid r t u2 = true
  · simp [h]; omega
  · simp [h]

/-- Counting rows matching a key distributes over append. -/
theorem countKey_append (l1 l2 : List TierListEntry) (oid : Nat) (r t u2 : String) :
    countKey (l1 ++ l2) oid r t u2 = countKey l1 oid r t u2 + countKey l2 oid r t u2 := by
  simp [countKey, List.filter_append]

/-- A key count of zero means no row matches. -/
theorem countKey_eq_zero (l : List TierListEntry) (oid : Nat) (r t u2 : String)
    (h : countKey l oid r t u2 = 0) :
    ∀ e ∈ l, keyMatches e oid r t u2 = false := by
  intro e he
  have h2 : l.filter (fun e => keyMatches e oid r t u2) = [] :=
    List.length_eq_zero.mp h
  by_contra hne
  have : e ∈ l.filter (fun e => keyMatches e oid r t u2) :=
    List.mem_filter.mpr ⟨he, by simpa using hne⟩
  rw [h2] at this
  exact List.not_mem_nil e this

/-- If no row matches, the key count is zero. -/
theorem countKey_zero_of_none (l : List TierListEntry) (oid : Nat) (r t u2 : String)
    (h : ∀ e ∈ l, keyMatches e oid r t u2 = false) :
    countKey l oid r t u2 = 0 := by
  simp only [countKey]
  rw [List.filter_eq_nil_iff.mpr (by intro a ha; simp [h a ha])]
  rfl

/-- The in-place update changes only `tier_rank` and `tier_position`, so key
matching is unaffected. -/
theorem keyMatches_overwrite (e : TierListEntry) (x : String) (y : Int) (oid : Nat)
    (r t u2 : String) :
    keyMatches { e with tier_rank := x, tier_position := y } oid r t u2 =
      keyMatches e oid r t u2 := rfl

/-- When `updateFirstMatch` finds no row, no row matches the update's key. -/
theorem updateFirstMatch_none (u : TLUpdate) (rr tc uid : String) :
    ∀ l : List TierListEntry, updateFirstMatch u rr tc uid l = none →
      ∀ e ∈ l, keyMatches e u.opening_id rr tc uid = false := by
  intro l
  induction l with
  | nil => intro _ e he; exact absurd he (List.not_mem_nil e)
  | cons e rest ih =>
    intro hnone e2 he2
    unfold updateFirstMatch at hnone
    by_cases h : keyMatches e u.opening_id rr tc uid = true
    · rw [if_pos h] at hnone
      exact absurd hnone (by simp)
    · rw [if_neg h] at hnone
      have h3 := Option.map_eq_none'.mp hnone
      rcases List.mem_cons.mp he2 with h4 | h4
      · rw [h4]
        exact Bool.not_eq_true _ ▸ by simpa using h
      · exact ih h3 e2 h4

/-- An in-place update preserves every key count. -/
theorem updateFirstMatch_counts (u : TLUpdate) (rr tc uid : String) :
    ∀ (l l2 : List TierListEntry), updateFirstMatch u rr tc uid l = some l2 →
      ∀ oid r t u2, countKey l2 oid r t u2 = countKey l oid r t u2 := by
  intro l
  induction l with
  | nil => intro l2 h; exact absurd h (by simp [updateFirstMatch])
  | cons e rest ih =>
    intro l2 hsome oid r t u2
    unfold updateFirstMatch at hsome
    by_cases h : keyMatches e u.opening_id rr tc uid = true
    · rw [if_pos h] at hsome
      have h2 := Option.some.inj hsome
      rw [← h2, countKey_cons, countKey_cons, keyMatches_overwrite]
    · rw [if_neg h] at hsome
      obtain ⟨l3, h3, h4⟩ := Option.map_eq_some'.mp hsome
      rw [← h4, countKey_cons, countKey_cons, ih l3 h3 oid r t u2]

/-- When `updateFirstMatch` finds a row, at least one row matches the
update's key. -/
theorem updateFirstMatch_pos (u : TLUpdate) (rr tc uid : String) :
    ∀ (l l2 : List TierListEntry), updateFirstMatch u rr tc uid l = some l2 →
      1 ≤ countKey l u.opening_id rr tc uid := by
  intro l
  induction l with
  | nil => intro l2 h; exact absurd h (by simp [updateFirstMatch])
  | cons e rest ih =>
    intro l2 hsome
    unfold updateFirstMatch at hsome
    by_cases h : keyMatches e u.opening_id rr tc uid = true
    · rw [countKey_cons, if_pos h]
      omega
    · rw [if_neg h] at hsome
      obtain ⟨l3, h3, -⟩ := Option.map_eq_some'.mp hsome
      rw [countKey_cons, if_neg h]
      have := ih l3 h3
      omega

/-- After updating the unique matching row in place, every row matching the
key carries the update's rank and position. -/
theorem updateFirstMatch_rank (u : TLUpdate) (rr tc uid : String) :
    ∀ (l l2 : List TierListEntry), updateFirstMatch u rr tc uid l = some l2 →
      countKey l u.opening_id rr tc uid ≤ 1 →
      ∀ e ∈ l2, keyMatches e u.opening_id rr tc uid = true →
        e.tier_rank = u.tier_rank ∧ e.tier_position = u.tier_position := by
  intro l
  induction l with
  | nil => intro l2 h; exact absurd h (by simp [updateFirstMatch])
  | cons e rest ih =>
    intro l2 hsome hcount e2 he2 hkey
    unfold updateFirstMatch at hsome
    by_cases h : keyMatches e u.opening_id rr tc uid = true
    · rw [if_pos h] at hsome
      have h2 := Option.some.inj hsome
      rw [countKey_cons, if_pos h] at hcount
      have hrest : countKey rest u.opening_id rr tc uid = 0 := by omega
      rw [← h2] at he2
      rcases List.mem_cons.mp he2 with h4 | h4
      · rw [h4]
        exact ⟨rfl, rfl⟩
      · exact absurd hkey (by simp [countKey_eq_zero rest _ _ _ _ hrest e2 h4])
    · rw [if_neg h] at hsome
      obtain ⟨l3, h3, h4⟩ := Option.map_eq_some'.mp hsome
      rw [countKey_cons, if_neg h] at hcount
      rw [← h4] at he2
      rcases List.mem_cons.mp he2 with h5 | h5
      · rw [h5] at hkey
        exact absurd hkey (by simpa using h)
      · exact ih l3 h3 (by omega) e2 h5 hkey

/-- A successful one-update call either rewrites the first matching row in
place or appends a fresh row. -/
theorem update_single (committed : List TierListEntry) (u : TLUpdate)
    (rr tc uid : String) :
    (update_tier_list committed [u] rr tc uid none).2 =
      (match updateFirstMatch u rr tc uid committed with
       | some w2 => w2
       | none => committed ++ [mkEntry u rr tc uid]) := by
  unfold update_tier_list
  cases h : updateFirstMatch u rr tc uid committed <;>
    simp [runUpdates, h]

/-- The fresh row inserted for an update matches exactly the update's key. -/
theorem countKey_mkEntry (u : TLUpdate) (rr tc uid : String) :
    countKey [mkEntry u rr tc uid] u.opening_id rr tc uid = 1 := by
  simp [countKey, keyMatches, mkEntry, List.filter_cons]

/-- After one successful call for a key whose prior count is at most one,
the key's count is exactly one. -/
theorem update_single_count (committed : List TierListEntry) (u : TLUpdate)
    (rr tc uid : String) (h : countKey committed u.opening_id rr tc uid ≤ 1) :
    countKey (update_tier_list committed [u] rr tc uid none).2 u.opening_id rr tc uid = 1 := by
  rw [update_single]
  cases hm : updateFirstMatch u rr tc uid committed with
  | none =>
    rw [countKey_append, countKey_mkEntry,
      countKey_zero_of_none committed _ _ _ _ (updateFirstMatch_none u rr tc uid committed hm)]
  | some w2 =>
    show countKey w2 u.opening_id rr tc uid = 1
    have h1 := updateFirstMatch_counts u rr tc uid committed w2 hm u.opening_id rr tc uid
    have h2 := updateFirstMatch_pos u rr tc uid committed w2 hm
    omega

/-- C5: tier-list writes are upserts — starting from a state with at most
one row for the key, writing {tier_rank:"A", tier_position:1} and then
{tier_rank:"S", tier_position:1} for the same key leaves exactly one row
for that key, and it holds tier_rank "S" and tier_position 1. -/
theorem tier_upsert_in_place (committed : List TierListEntry) (oid : Nat)
    (rr tc uid : String) (h : countKey committed oid rr tc uid ≤ 1) :
    countKey (update_tier_list (update_tier_list committed [TLUpdate.mk oid "A" 1]
        rr tc uid none).2 [TLUpdate.mk oid "S" 1] rr tc uid none).2 oid rr tc uid = 1 ∧
    ∀ e ∈ (update_tier_list (update_tier_list committed [TLUpdate.mk oid "A" 1]
        rr tc uid none).2 [TLUpdate.mk oid "S" 1] rr tc uid none).2,
      keyMatches e oid rr tc uid = true → e.tier_rank = "S" ∧ e.tier_position = 1 := by
  have hs1 : countKey (update_tier_list committed [TLUpdate.mk oid "A" 1]
      rr tc uid none).2 oid rr tc uid = 1 :=
    update_single_count committed (TLUpdate.mk oid "A" 1) rr tc uid h
  constructor
  · exact update_single_count _ (TLUpdate.mk oid "S" 1) rr tc uid (le_of_eq hs1)
  · intro e he hkey
    rw [update_single] at he
    cases hm : updateFirstMatch (TLUpdate.mk oid "S" 1) rr tc uid
        (update_tier_list committed [TLUpdate.mk oid "A" 1] rr tc uid none).2 with
    | none =>
      have h0 := countKey_zero_of_none _ oid rr tc uid
        (updateFirstMatch_none (TLUpdate.mk oid "S" 1) rr tc uid _ hm)
      rw [hs1] at h0
      exact absurd h0 one_ne_zero
    | some w3 =>
      rw [hm] at he
      exact updateFirstMatch_rank (TLUpdate.mk oid "S" 1) rr tc uid _ w3 hm
        (le_of_eq hs1) e he hkey

/-- Witness for C5: the two writes applied to the empty table leave exactly
one row for the key. -/
theorem tier_upsert_in_place_witness :
    countKey (update_tier_list (update_tier_list [] [TLUpdate.mk 7 "A" 1]
        "all" "all" "default" none).2 [TLUpdate.mk 7 "S" 1] "all" "all" "default" none).2
      7 "all" "all" "default" = 1 :=
  (tier_upsert_in_place [] 7 "all" "all" "default" (by decide)).1

/-- Unfolding lemma: a successful call commits the working rows followed by
the rows added during the call. -/
theorem update_none_eq (committed : List TierListEntry) (updates : List TLUpdate)
    (rr tc uid : String) :
    (update_tier_list committed updates rr tc uid none).2 =
      (runUpdates rr tc uid updates committed []).1 ++
        (runUpdates rr tc uid updates committed []).2 := rfl

/-- Key matching unfolded to its four column equalities. -/
theorem keyMatches_iff (e : TierListEntry) (oid : Nat) (r t u2 : String) :
    keyMatches e oid r t u2 = true ↔
      e.opening_id = oid ∧ e.rating_range = r ∧ e.time_control = t ∧ e.user_id = u2 := by
  simp [keyMatches, Bool.and_eq_true, decide_eq_true_eq, and_assoc]

/-- Key matching of a freshly inserted row. -/
theorem keyMatches_mkEntry_iff (u : TLUpdate) (rr tc uid : String) (oid : Nat)
    (r t u2 : String) :
    keyMatches (mkEntry u rr tc uid) oid r t u2 = true ↔
      u.opening_id = oid ∧ rr = r ∧ tc = t ∧ uid = u2 := by
  simp [mkEntry, keyMatches_iff]

/-- Loop invariant for `runUpdates`: if the session's view plus the pending
inserts hold at most one row per key, the pending rows' opening ids are
disjoint from the remaining updates, and the remaining updates carry
pairwise distinct opening ids, then the loop maintains at most one row per
key. -/
theorem runUpdates_invariant (rr tc uid : String) :
    ∀ (updates : List TLUpdate) (working pending : List TierListEntry),
      (∀ oid r t u2, countKey working oid r t u2 + countKey pending oid r t u2 ≤ 1) →
      (∀ u ∈ updates, ∀ e ∈ pending, e.opening_id ≠ u.opening_id) →
      List.Pairwise (fun a b => a.opening_id ≠ b.opening_id) updates →
      ∀ oid r t u2,
        countKey (runUpdates rr tc uid updates working pending).1 oid r t u2 +
          countKey (runUpdates rr tc uid updates working pending).2 oid r t u2 ≤ 1 := by
  intro updates
  induction updates with
  | nil =>
    intro working pending hinv _ _ oid r t u2
    exact hinv oid r t u2
  | cons u rest ih =>
    intro working pending hinv hdisj hpair oid r t u2
    obtain ⟨hhead, htail⟩ := List.pairwise_cons.mp hpair
    unfold runUpdates
    cases hm : updateFirstMatch u rr tc uid working with
    | some w2 =>
      show countKey (runUpdates rr tc uid rest w2 pending).1 oid r t u2 +
        countKey (runUpdates rr tc uid rest w2 pending).2 oid r t u2 ≤ 1
      refine ih w2 pending ?_ ?_ htail oid r t u2
      · intro oid2 r2 t2 u22
        rw [updateFirstMatch_counts u rr tc uid working w2 hm oid2 r2 t2 u22]
        exact hinv oid2 r2 t2 u22
      · intro v hv e he
        exact hdisj v (List.mem_cons_of_mem u hv) e he
    | none =>
      show countKey (runUpdates rr tc uid rest working
          (pending ++ [mkEntry u rr tc uid])).1 oid r t u2 +
        countKey (runUpdates rr tc uid rest working
          (pending ++ [mkEntry u rr tc uid])).2 oid r t u2 ≤ 1
      refine ih working (pending ++ [mkEntry u rr tc uid]) ?_ ?_ htail oid r t u2
      · intro oid2 r2 t2 u22
        rw [countKey_append]
        by_cases hk : keyMatches (mkEntry u rr tc uid) oid2 r2 t2 u22 = true
        · obtain ⟨h1, h2, h3, h4⟩ := (keyMatches_mkEntry_iff u rr tc uid oid2 r2 t2 u22).mp hk
          have hw : countKey working oid2 r2 t2 u22 = 0 := by
            rw [← h1, ← h2, ← h3, ← h4]
            exact countKey_zero_of_none working _ _ _ _
              (updateFirstMatch_none u rr tc uid working hm)
          have hp : countKey pending oid2 r2 t2 u22 = 0 := by
            refine countKey_zero_of_none pending _ _ _ _ ?_
            intro e he
            by_contra hke
            have hke2 := (keyMatches_iff e oid2 r2 t2 u22).mp (by simpa using hke)
            exact hdisj u (List.mem_cons_self u rest) e he (hke2.1.trans h1.symm)
          have hmk : countKey [mkEntry u rr tc uid] oid2 r2 t2 u22 = 1 := by
            simp [countKey, List.filter_cons, hk]
          omega
        · have hmk : countKey [mkEntry u rr tc uid] oid2 r2 t2 u22 = 0 := by
            simp [countKey, List.filter_cons, hk]
          have := hinv oid2 r2 t2 u22
          omega
      · intro v hv e he
        rcases List.mem_append.mp he with h5 | h5
        · exact hdisj v (List.mem_cons_of_mem u hv) e h5
        · rw [List.mem_singleton.mp h5]
          exact hhead v hv

/-- C10 as stated is false: with autoflush disabled, a single call holding
two updates for the same key inserts two rows for that key. -/
theorem tier_upsert_duplicates_in_call : ¬ tierUpsertPreservesInvariant := by
  intro h
  have h2 := h [] [TLUpdate.mk 7 "A" 1, TLUpdate.mk 7 "S" 1] "all" "all" "default"
    (fun oid r t u2 => by simp [countKey]) 7 "all" "all" "default"
  exact absurd h2 (by decide)

/-- C10 amended: `update_tier_list` preserves the at-most-one-row-per-key
invariant for every call whose updates carry pairwise distinct opening ids;
duplicates within one call break it because rows added during the call are
invisible to the later existence checks. -/
theorem tier_upsert_invariant_distinct (committed : List TierListEntry)
    (updates : List TLUpdate) (rr tc uid : String)
    (hinv : ∀ oid r t u2, countKey committed oid r t u2 ≤ 1)
    (hdist : List.Pairwise (fun a b => a.opening_id ≠ b.opening_id) updates) :
    ∀ oid r t u2,
      countKey (update_tier_list committed updates rr tc uid none).2 oid r t u2 ≤ 1 := by
  intro oid r t u2
  rw [update_none_eq, countKey_append]
  exact runUpdates_invariant rr tc uid updates committed []
    (fun oid2 r2 t2 u22 => by
      have h9 := hinv oid2 r2 t2 u22
      have h8 : countKey ([] : List TierListEntry) oid2 r2 t2 u22 = 0 := rfl
      omega)
    (fun u hu e he => absurd he (List.not_mem_nil e))
    hdist oid r t u2

/-- Witness for the amended C10: a distinct-key batch on the empty table. -/
theorem tier_upsert_invariant_distinct_witness :
    countKey (update_tier_list [] [TLUpdate.mk 7 "A" 1] "all" "all" "default" none).2
      7 "all" "all" "default" ≤ 1 :=
  tier_upsert_invariant_distinct [] [TLUpdate.mk 7 "A" 1] "all" "all" "default"
    (fun oid r t u2 => by simp [countKey]) (by simp) 7 "all" "all" "default"

/-- Membership in the joined, filtered, latest-kept pair list, unfolded. -/
theorem mem_tierListPairs (db : QueryDB) (rr tc : String) (p : QOpening × QStat) :
    p ∈ tierListPairs db rr tc ↔
      (p.1 ∈ db.openings ∧ p.1.is_active = true ∧ p.2 ∈ db.stats ∧
        p.2.opening_id = p.1.id ∧ matchesFilters rr tc p.2 = true ∧
        p.2.collected_at = maxCollected db p.2.opening_id) := by
  unfold tierListPairs
  rw [List.mem_flatMap]
  constructor
  · rintro ⟨o, ho, hp⟩
    by_cases ha : o.is_active = true
    · rw [if_pos ha] at hp
      obtain ⟨s, hs, heq⟩ := List.mem_map.mp hp
      obtain ⟨hs1, hs2⟩ := List.mem_filter.mp hs
      simp only [Bool.and_eq_true, decide_eq_true_eq] at hs2
      rw [← heq]
      exact ⟨ho, ha, hs1, hs2.1.1, hs2.1.2, hs2.2⟩
    · rw [if_neg ha] at hp
      exact absurd hp (List.not_mem_nil p)
  · rintro ⟨h1, h2, h3, h4, h5, h6⟩
    refine ⟨p.1, h1, ?_⟩
    rw [if_pos h2]
    refine List.mem_map.mpr ⟨p.2, List.mem_filter.mpr ⟨h3, ?_⟩, rfl⟩
    simp only [Bool.and_eq_true, decide_eq_true_eq]
    exact ⟨⟨h4, h5⟩, h6⟩

/-- C2 amended: every row `get_tier_list` returns pairs an active opening
with one of its filter-matching statistics whose `collected_at` equals the
opening's GLOBAL maximum (computed over all its rows, ignoring the context
filters), with the stored tier data attached when the key has an entry and
null tier fields otherwise; the result is ordered by performance score
descending and capped at 50; and whenever at most 50 pairs qualify, every
qualifying pair is returned. -/
theorem tier_list_global_latest (db : QueryDB) (rr tc uid : String) :
    (get_tier_list db rr tc uid).length ≤ 50 ∧
    (∀ r ∈ get_tier_list db rr tc uid,
      r.opening ∈ db.openings ∧ r.opening.is_active = true ∧
      r.stat ∈ db.stats ∧ r.stat.opening_id = r.opening.id ∧
      matchesFilters rr tc r.stat = true ∧
      r.stat.collected_at = maxCollected db r.stat.opening_id ∧
      r.tier_rank = (tierLookup db rr tc uid r.opening.id).map (fun e => e.tier_rank) ∧
      r.tier_position =
        (tierLookup db rr tc uid r.opening.id).map (fun e => e.tier_position)) ∧
    List.Pairwise (fun a b => b.stat.performance_score ≤ a.stat.performance_score)
      (get_tier_list db rr tc uid) ∧
    ((tierListPairs db rr tc).length ≤ 50 →
      ∀ p ∈ tierListPairs db rr tc,
        TierRow.mk p.1 p.2
            ((tierLookup db rr tc uid p.1.id).map (fun e => e.tier_rank))
            ((tierLookup db rr tc uid p.1.id).map (fun e => e.tier_position)) ∈
          get_tier_list db rr tc uid) := by
  refine ⟨?_, ?_, ?_, ?_⟩
  · unfold get_tier_list
    rw [List.length_map]
    exact List.length_take_le 50 _
  · intro r hr
    unfold get_tier_list at hr
    obtain ⟨p, hp, heq⟩ := List.mem_map.mp hr
    have hp2 : p ∈ tierListPairs db rr tc :=
      (List.mem_insertionSort scoreDescRel).mp (List.mem_of_mem_take hp)
    obtain ⟨h1, h2, h3, h4, h5, h6⟩ := (mem_tierListPairs db rr tc p).mp hp2
    rw [← heq]
    exact ⟨h1, h2, h3, h4, h5, h6, rfl, rfl⟩
  · unfold get_tier_list
    refine List.pairwise_map.mpr ?_
    refine List.Pairwise.imp (fun h => h) ?_
    exact (List.sorted_insertionSort scoreDescRel _).sublist (List.take_sublist _ _)
  · intro hlen p hp
    unfold get_tier_list
    rw [List.take_of_length_le (by rw [List.length_insertionSort]; exact hlen)]
    exact List.mem_map_of_mem _ ((List.mem_insertionSort scoreDescRel).mpr hp)

/-- C2 as stated is false: the latest-statistic subquery ignores the context
filters, so an opening whose globally-latest row sits in another context is
dropped entirely — here the only active opening has a row matching the
"1800" filter, yet the tier list comes back empty. -/
theorem tier_list_filtered_latest_refuted : ¬ tierListLatestPerFilterClaim := by
  intro h
  obtain ⟨-, h2⟩ := h qdb1 "1800" "all" "default"
  have hnil : get_tier_list qdb1 "1800" "all" "default" = [] := by decide
  have h3 := h2 (by rw [hnil]; decide) qoE4 (by decide) rfl
    ⟨qsOld, List.mem_cons_self qsOld [qsNew], rfl, by decide⟩
  obtain ⟨r, hr, -⟩ := h3
  rw [hnil] at hr
  exact List.not_mem_nil r hr

/-- Witness for the amended C2: in the unfiltered context the opening's
globally-latest row is returned, with null tier fields. -/
theorem tier_list_global_latest_witness :
    TierRow.mk qoE4 qsNew none none ∈ get_tier_list qdb1 "all" "all" "default" ∧
    matchesFilters "all" "all" qsNew = true ∧
    qsNew.collected_at = maxCollected qdb1 qsNew.opening_id := by
  have hm : TierRow.mk qoE4 qsNew none none ∈ get_tier_list qdb1 "all" "all" "default" :=
    (tier_list_global_latest qdb1 "all" "all" "default").2.2.2 (by decide)
      (qoE4, qsNew) ((mem_tierListPairs qdb1 "all" "all" (qoE4, qsNew)).mpr
        ⟨List.mem_cons_self qoE4 [], rfl,
         List.mem_cons_of_mem qsOld (List.mem_cons_self qsNew []), rfl, by decide, rfl⟩)
  have hall := (tier_list_global_latest qdb1 "all" "all" "default").2.1
    (TierRow.mk qoE4 qsNew none none) hm
  exact ⟨hm, hall.2.2.2.2.1, hall.2.2.2.2.2.1⟩

/-- C8 as stated is false: for an unrecognized metric, `get_top_performers`
sorts by the fallback column but then evaluates `getattr(statistic, metric)`
without a default while formatting the response, raising `AttributeError`
as soon as any row is returned instead of silently matching the explicit
`performance_score` request. -/
theorem unknown_metric_not_silent : ¬ unknownFieldFallsBackClaim := by
  intro h
  have h2 := (h qdb1 "coolness" (by decide)).2 10
  rw [show get_top_performers qdb1 10 "coolness" = .error "AttributeError" from rfl] at h2
  obtain ⟨l, h4⟩ : ∃ l, get_top_performers qdb1 10 "performance_score" = .ok l := ⟨_, rfl⟩
  rw [h4] at h2
  exact Except.noConfusion h2

/-- C8 amended: a string naming no attribute of the statistic model makes
`get_openings` silently fall back to sorting by `performance_score` with
rows identical to the explicit request, while `get_top_performers` sorts by
the fallback column but raises `AttributeError` while formatting whenever
the result set is nonempty (returning identical — empty — rows only when
nothing qualifies). -/
theorem unknown_attr_behavior (db : QueryDB) (name : String)
    (h : statClassAttr name = none) :
    (∀ rr tc mg ord lim,
      get_openings db rr tc mg name ord lim =
        get_openings db rr tc mg "performance_score" ord lim) ∧
    (∀ lim, (topPerformerRows db lim .performance_score = [] →
        get_top_performers db lim name = .ok []) ∧
      (topPerformerRows db lim .performance_score ≠ [] →
        get_top_performers db lim name = .error "AttributeError")) := by
  have hres : resolveOrderField name = .ok .performance_score := by
    unfold resolveOrderField
    rw [h]
  constructor
  · intro rr tc mg ord lim
    simp only [get_openings, hres]
    rfl
  · intro lim
    constructor
    · intro hempty
      unfold get_top_performers
      rw [hres]
      show ((topPerformerRows db lim .performance_score).mapM _ : Except String _) = _
      rw [hempty]
      rfl
    · intro hne
      obtain ⟨p, rest, hpr⟩ := List.exists_cons_of_ne_nil hne
      have hga : getattrStat p.2 name = .error "AttributeError" := by
        unfold getattrStat
        rw [h]
      unfold get_top_performers
      rw [hres]
      show ((topPerformerRows db lim .performance_score).mapM _ : Except String _) = _
      rw [hpr]
      simp only [List.mapM_cons, hga]
      rfl

/-- Witness for the amended C8 on a concrete database and metric. -/
theorem unknown_attr_behavior_witness :
    get_openings qdb1 (some "1800") none 100 "coolness" "desc" 50 =
      get_openings qdb1 (some "1800") none 100 "performance_score" "desc" 50 ∧
    get_top_performers qdb1 10 "coolness" = .error "AttributeError" := by
  have hw := unknown_attr_behavior qdb1 "coolness" rfl
  exact ⟨hw.1 (some "1800") none 100 "desc" 50, (hw.2 10).2 (by decide)⟩
